import Mathlib

/-!
Verification of the offline content cache and playback/schedule engine of a
digital-signage TV player.  The definitions below are shallow embeddings of
the TypeScript services in `src/app/core/services` (`schedule.service.ts`,
`content-sync.service.ts`, `playback.service.ts`) together with the data
model in `src/app/core/models`.  JavaScript strings compared with `<` / `<=`
are modelled as lists of UTF-16 code units (`List Nat`) with lexicographic
comparison; machine numbers are modelled as `Nat` / `Int`.
-/

namespace Signage

/-- Lexicographic strict comparison of JavaScript strings, represented as
lists of UTF-16 code units.  `strLt a b` is the value of the JS expression
`a < b` on strings. -/
def strLt : List Nat → List Nat → Bool
  | _, [] => false
  | [], _ :: _ => true
  | a :: as, b :: bs => a < b || (a == b && strLt as bs)

/-- Code-unit representation of the "HH:MM" string for the time of day
with hour `h` and minute `m` (48 is the code of the digit 0, 58 of a colon).
`Date.prototype.toTimeString().slice(0, 5)` in `schedule.service.ts` and
`playback.service.ts` produces exactly this zero-padded shape. -/
def encodeHHMM (h m : Nat) : List Nat :=
  [48 + h / 10, 48 + h % 10, 58, 48 + m / 10, 48 + m % 10]

/-- On well-formed "HH:MM" strings, the JS lexicographic string comparison
agrees with numeric comparison of the encoded minutes-of-day. -/
theorem strLt_encodeHHMM (h m h2 m2 : Nat)
    (hh : h < 24) (hm : m < 60) (hh2 : h2 < 24) (hm2 : m2 < 60) :
    strLt (encodeHHMM h m) (encodeHHMM h2 m2) = decide (h * 60 + m < h2 * 60 + m2) := by
  rw [Bool.eq_iff_iff]
  simp only [encodeHHMM, strLt, Bool.or_eq_true, Bool.and_eq_true, decide_eq_true_eq,
    beq_iff_eq, Bool.false_eq_true, and_false, or_false, Nat.lt_irrefl, false_or, true_and]
  omega

/-- The seven weekday names produced by
`toLocaleDateString('en-US', { weekday: 'long' })`, in the fallback order
hard-coded in `schedule.service.ts` and `playback.service.ts`. -/
def allDays : List String :=
  ["Monday", "Tuesday", "Wednesday", "Thursday", "Friday", "Saturday", "Sunday"]

/-- A row of `screen.schedule.upcoming`, the `ScheduleItem` interface of
`schedule.service.ts` (also `PlaylistScheduleItem` in `playback.service.ts`,
where `days_of_week` is optional). -/
structure ScheduleItem where
  playlist_id : String
  start_time : List Nat
  end_time : List Nat
  priority : Int
  days_of_week : Option (List String)
deriving Repr, DecidableEq

/-- The rule-matching predicate shared verbatim by
`ScheduleService.checkSchedule` and `PlaybackService.startPlayback`:
`days.includes(currentDay) && currentTime >= schedule.start_time &&
currentTime <= schedule.end_time`, with `days` defaulting to all seven
weekdays when `days_of_week` is absent.  In JS, `x >= y` on strings is
`!(x < y)` and `x <= y` is `!(y < x)`. -/
def scheduleActive (currentDay : String) (currentTime : List Nat) (s : ScheduleItem) : Bool :=
  (s.days_of_week.getD allDays).contains currentDay &&
    !(strLt currentTime s.start_time) && !(strLt s.end_time currentTime)

/-- C1: a schedule rule matches exactly when the current weekday is in the
rule's days-of-week (an absent `days_of_week` matching every weekday) and
`startTime ≤ currentTime ≤ endTime` holds at minute resolution with both
boundary comparisons inclusive. -/
theorem scheduleActive_iff_minutes (day : String) (s : ScheduleItem)
    (ch cm sh sm eh em : Nat)
    (hch : ch < 24) (hcm : cm < 60) (hsh : sh < 24) (hsm : sm < 60)
    (heh : eh < 24) (hem : em < 60)
    (hday : day ∈ allDays)
    (hst : s.start_time = encodeHHMM sh sm) (hen : s.end_time = encodeHHMM eh em) :
    scheduleActive day (encodeHHMM ch cm) s = true ↔
      ((∀ l, s.days_of_week = some l → day ∈ l) ∧
        sh * 60 + sm ≤ ch * 60 + cm ∧ ch * 60 + cm ≤ eh * 60 + em) := by
  unfold scheduleActive
  rw [hst, hen, strLt_encodeHHMM ch cm sh sm hch hcm hsh hsm,
    strLt_encodeHHMM eh em ch cm heh hem hch hcm]
  cases hd : s.days_of_week with
  | none =>
      simp only [Option.getD_none, Bool.and_eq_true, Bool.not_eq_true', decide_eq_false_iff_not,
        Nat.not_lt, List.contains, List.elem_eq_mem, decide_eq_true_eq]
      constructor
      · rintro ⟨⟨-, h1⟩, h2⟩
        exact ⟨(fun l h => nomatch h), h1, h2⟩
      · rintro ⟨-, h1, h2⟩
        exact ⟨⟨hday, h1⟩, h2⟩
  | some l =>
      simp only [Option.getD_some, Bool.and_eq_true, Bool.not_eq_true', decide_eq_false_iff_not,
        Nat.not_lt, List.contains, List.elem_eq_mem, decide_eq_true_eq]
      constructor
      · rintro ⟨⟨hmem, h1⟩, h2⟩
        exact ⟨(fun l2 heq => by cases heq; exact hmem), h1, h2⟩
      · rintro ⟨hmem, h1, h2⟩
        exact ⟨⟨hmem l rfl, h1⟩, h2⟩

/-- Concrete rule used to witness the boundary-inclusivity direction of C1:
a rule from 09:00 to 17:00 on Mondays. -/
def c1Rule : ScheduleItem :=
  { playlist_id := "P1", start_time := encodeHHMM 9 0, end_time := encodeHHMM 17 0,
    priority := 1, days_of_week := some ["Monday"] }

/-- Witness for C1: the 09:00-17:00 Monday rule is active at Monday 09:00 exactly. -/
theorem scheduleActive_iff_minutes_witness :
    scheduleActive "Monday" (encodeHHMM 9 0) c1Rule = true :=
  (scheduleActive_iff_minutes "Monday" c1Rule 9 0 9 0 17 0
    (by decide) (by decide) (by decide) (by decide) (by decide) (by decide)
    (by simp [allDays]) rfl rfl).mpr
    ⟨(fun l h => by cases h; simp), by decide, by decide⟩

/-- Lexicographic comparison is irreflexive, matching JS `s < s === false`. -/
theorem strLt_irrefl : ∀ a : List Nat, strLt a a = false
  | [] => rfl
  | a :: as => by simp [strLt, strLt_irrefl as]

/-- Lexicographic comparison is transitive. -/
theorem strLt_trans : ∀ (a b c : List Nat),
    strLt a b = true → strLt b c = true → strLt a c = true := by
  intro a
  induction a with
  | nil =>
      intro b c h1 h2
      cases b with
      | nil => exact absurd h1 (by simp [strLt])
      | cons y ys =>
          cases c with
          | nil => exact absurd h2 (by simp [strLt])
          | cons z zs => rfl
  | cons x xs ih =>
      intro b c h1 h2
      cases b with
      | nil => exact absurd h1 (by simp [strLt])
      | cons y ys =>
          cases c with
          | nil => exact absurd h2 (by simp [strLt])
          | cons z zs =>
              simp only [strLt, Bool.or_eq_true, Bool.and_eq_true, decide_eq_true_eq,
                beq_iff_eq] at h1 h2 ⊢
              rcases h1 with h1 | ⟨e1, r1⟩ <;> rcases h2 with h2 | ⟨e2, r2⟩
              · exact Or.inl (h1.trans h2)
              · exact Or.inl (e2 ▸ h1)
              · exact Or.inl (e1 ▸ h2)
              · exact Or.inr ⟨e1.trans e2, ih ys zs r1 r2⟩

/-- Lexicographic comparison is trichotomous. -/
theorem strLt_connex : ∀ (a b : List Nat), strLt a b = true ∨ a = b ∨ strLt b a = true := by
  intro a
  induction a with
  | nil =>
      intro b
      cases b with
      | nil => exact Or.inr (Or.inl rfl)
      | cons y ys => exact Or.inl rfl
  | cons x xs ih =>
      intro b
      cases b with
      | nil => exact Or.inr (Or.inr rfl)
      | cons y ys =>
          rcases Nat.lt_trichotomy x y with h | h | h
          · left; simp [strLt, h]
          · rcases ih ys with h2 | h2 | h2
            · left; simp [strLt, h, h2]
            · right; left; rw [h, h2]
            · right; right; simp [strLt, h, h2]
          · right; right; simp [strLt, h]

/-- Failure of lexicographic comparison (JS `>=` on strings) is transitive. -/
theorem strNotLt_trans (a b c : List Nat)
    (h1 : strLt b a = false) (h2 : strLt c b = false) : strLt c a = false := by
  cases h3 : strLt c a with
  | false => rfl
  | true =>
      exfalso
      rcases strLt_connex b c with hbc | hbc | hcb
      · rw [strLt_trans b c a hbc h3] at h1; cases h1
      · rw [hbc, h3] at h1; cases h1
      · rw [hcb] at h2; cases h2

/-- `Number.MAX_SAFE_INTEGER`, the initial value of `highestPriority` in
`ScheduleService.checkSchedule`. -/
def maxSafeInteger : Int := 9007199254740991

/-- The selection loop of `ScheduleService.checkSchedule`: scan `upcoming`
keeping the first rule that is active for the current day/time and whose
priority is strictly below the best priority seen so far.  Returns the pair
`(highestPrioritySchedule, highestPriority)`. -/
def selectLoop (day : String) (t : List Nat) :
    List ScheduleItem → Option ScheduleItem → Int → Option ScheduleItem × Int
  | [], best, hp => (best, hp)
  | s :: rest, best, hp =>
      if scheduleActive day t s = true ∧ s.priority < hp then
        selectLoop day t rest (some s) s.priority
      else
        selectLoop day t rest best hp

/-- The schedule resolution of `ScheduleService.checkSchedule`, starting the
loop from `null` / `Number.MAX_SAFE_INTEGER`. -/
def selectSchedule (day : String) (t : List Nat) (rules : List ScheduleItem) :
    Option ScheduleItem :=
  (selectLoop day t rules none maxSafeInteger).1

/-- Full characterisation of the checkSchedule selection loop: either no
rule updates the accumulator, or the result is the first active rule of
minimal priority. -/
theorem selectLoop_spec (day : String) (t : List Nat) :
    ∀ (rules : List ScheduleItem) (best : Option ScheduleItem) (hp : Int),
      (selectLoop day t rules best hp = (best, hp) ∧
        ∀ b ∈ rules, scheduleActive day t b = true → hp ≤ b.priority) ∨
      (∃ l1 a l2, rules = l1 ++ a :: l2 ∧
        selectLoop day t rules best hp = (some a, a.priority) ∧
        scheduleActive day t a = true ∧ a.priority < hp ∧
        (∀ b ∈ l1, scheduleActive day t b = true → a.priority < b.priority) ∧
        (∀ b ∈ l2, scheduleActive day t b = true → a.priority ≤ b.priority)) := by
  intro rules
  induction rules with
  | nil =>
      intro best hp
      exact Or.inl ⟨rfl, by simp⟩
  | cons s rest ih =>
      intro best hp
      by_cases hc : scheduleActive day t s = true ∧ s.priority < hp
      · rw [show selectLoop day t (s :: rest) best hp
            = selectLoop day t rest (some s) s.priority by simp [selectLoop, hc]]
        rcases ih (some s) s.priority with ⟨heq, hmin⟩ |
          ⟨l1, a, l2, hsplit, heq, hact, hlt, hfirst, hrest⟩
        · refine Or.inr ⟨[], s, rest, rfl, heq, hc.1, hc.2, by simp, ?_⟩
          exact hmin
        · refine Or.inr ⟨s :: l1, a, l2, by simp [hsplit], heq, hact, hlt.trans hc.2, ?_, hrest⟩
          intro b hb hbact
          rcases List.mem_cons.mp hb with rfl | hb2
          · exact hlt
          · exact hfirst b hb2 hbact
      · rw [show selectLoop day t (s :: rest) best hp
            = selectLoop day t rest best hp by simp [selectLoop, hc]]
        rcases ih best hp with ⟨heq, hmin⟩ |
          ⟨l1, a, l2, hsplit, heq, hact, hlt, hfirst, hrest⟩
        · refine Or.inl ⟨heq, ?_⟩
          intro b hb hbact
          rcases List.mem_cons.mp hb with rfl | hb2
          · by_contra hlt2
            exact hc ⟨hbact, by omega⟩
          · exact hmin b hb2 hbact
        · refine Or.inr ⟨s :: l1, a, l2, by simp [hsplit], heq, hact, hlt, ?_, hrest⟩
          intro b hb hbact
          rcases List.mem_cons.mp hb with rfl | hb2
          · by_contra hlt2
            exact hc ⟨hbact, by omega⟩
          · exact hfirst b hb2 hbact

/-- The comparator of `PlaybackService.startPlayback`, as a total preorder:
`a` sorts no later than `b` when `a.priority - b.priority < 0`, or the
priorities are equal and `a.start_time.localeCompare(b.start_time) <= 0`. -/
def scheduleLe (a b : ScheduleItem) : Bool :=
  a.priority < b.priority || (a.priority == b.priority && !(strLt b.start_time a.start_time))

theorem scheduleLe_refl (a : ScheduleItem) : scheduleLe a a = true := by
  simp [scheduleLe, strLt_irrefl]

theorem scheduleLe_trans (a b c : ScheduleItem)
    (h1 : scheduleLe a b) (h2 : scheduleLe b c) : scheduleLe a c := by
  simp only [scheduleLe, Bool.or_eq_true, Bool.and_eq_true, decide_eq_true_eq, beq_iff_eq,
    Bool.not_eq_true', Bool.not_eq_true] at h1 h2 ⊢
  rcases h1 with h1 | ⟨e1, r1⟩ <;> rcases h2 with h2 | ⟨e2, r2⟩
  · exact Or.inl (h1.trans h2)
  · exact Or.inl (e2 ▸ h1)
  · exact Or.inl (e1 ▸ h2)
  · exact Or.inr ⟨e1.trans e2, strNotLt_trans a.start_time b.start_time c.start_time r1 r2⟩

theorem scheduleLe_total (a b : ScheduleItem) : scheduleLe a b || scheduleLe b a := by
  simp only [scheduleLe, Bool.or_eq_true, Bool.and_eq_true, decide_eq_true_eq, beq_iff_eq,
    Bool.not_eq_true', Bool.not_eq_true]
  rcases Int.lt_trichotomy a.priority b.priority with h | h | h
  · exact Or.inl (Or.inl h)
  · rcases strLt_connex a.start_time b.start_time with h2 | h2 | h2
    · refine Or.inl (Or.inr ⟨h, ?_⟩)
      cases h3 : strLt b.start_time a.start_time with
      | false => rfl
      | true =>
          have h4 := strLt_trans _ _ _ h2 h3
          rw [strLt_irrefl] at h4
          cases h4
    · exact Or.inl (Or.inr ⟨h, by rw [h2, strLt_irrefl]⟩)
    · refine Or.inr (Or.inr ⟨h.symm, ?_⟩)
      cases h3 : strLt a.start_time b.start_time with
      | false => rfl
      | true =>
          have h4 := strLt_trans _ _ _ h2 h3
          rw [strLt_irrefl] at h4
          cases h4
  · exact Or.inr (Or.inl h)

/-- The schedule list as sorted by `PlaybackService.startPlayback` before it
looks for an active rule: stable sort by priority, then by start time. -/
def sortedSchedules (rules : List ScheduleItem) : List ScheduleItem :=
  rules.mergeSort scheduleLe

/-- The schedule resolution of `PlaybackService.startPlayback`:
`sortedSchedules.find(...)` with the shared active-rule predicate. -/
def startPlaybackSelect (day : String) (t : List Nat) (rules : List ScheduleItem) :
    Option ScheduleItem :=
  (sortedSchedules rules).find? (scheduleActive day t)

/-- A successful `find?` over a `Pairwise le` list returns an element that
is `le` every matching element of the list. -/
theorem find?_min_of_pairwise {α : Type} {le : α → α → Bool} {p : α → Bool}
    (hrefl : ∀ a, le a a = true) :
    ∀ {l : List α} {a : α}, l.Pairwise (fun x y => le x y = true) → l.find? p = some a →
      p a = true ∧ ∀ b ∈ l, p b = true → le a b = true := by
  intro l
  induction l with
  | nil => intro a _ h; cases h
  | cons x xs ih =>
      intro a hpw hf
      rw [List.pairwise_cons] at hpw
      by_cases hx : p x = true
      · rw [List.find?_cons_of_pos _ hx] at hf
        injection hf with hf2
        subst hf2
        refine ⟨hx, ?_⟩
        intro b hb _
        rcases List.mem_cons.mp hb with rfl | hb2
        · exact hrefl b
        · exact hpw.1 b hb2
      · rw [List.find?_cons_of_neg _ (by simpa using hx)] at hf
        obtain ⟨hpa, hmin⟩ := ih hpw.2 hf
        refine ⟨hpa, ?_⟩
        intro b hb hbp
        rcases List.mem_cons.mp hb with rfl | hb2
        · exact absurd hbp hx
        · exact hmin b hb2 hbp

/-- First C2 counterexample rule: active Mondays 10:00-12:00, priority 1. -/
def c2r1 : ScheduleItem :=
  { playlist_id := "P1", start_time := encodeHHMM 10 0, end_time := encodeHHMM 12 0,
    priority := 1, days_of_week := some ["Monday"] }

/-- Second C2 counterexample rule: active Mondays 09:00-12:00, priority 1. -/
def c2r2 : ScheduleItem :=
  { playlist_id := "P2", start_time := encodeHHMM 9 0, end_time := encodeHHMM 12 0,
    priority := 1, days_of_week := some ["Monday"] }

/-- C2 counterexample: at Monday 10:30 both rules match with the same lowest
priority, but the selection loop of `ScheduleService.checkSchedule` keeps
the first rule of the array, whose start time "10:00" is lexicographically
later than the other matching rule's "09:00" — so the claimed tie-break by
earliest startTime does not hold for the checkSchedule resolution. -/
theorem selectSchedule_tie_not_earliest_start :
    selectSchedule "Monday" (encodeHHMM 10 30) [c2r1, c2r2] = some c2r1 ∧
    scheduleActive "Monday" (encodeHHMM 10 30) c2r2 = true ∧
    c2r2.priority = c2r1.priority ∧
    strLt c2r2.start_time c2r1.start_time = true ∧
    c2r1.playlist_id ≠ c2r2.playlist_id := by decide

/-- C2 (amended): both schedule resolutions select a matching rule of
numerically lowest priority, but they break priority ties differently:
`ScheduleService.checkSchedule` keeps the earliest matching rule in array
order (its strict `<` against the running best priority never replaces a
tie), while `PlaybackService.startPlayback` sorts by priority and then by
lexicographically earliest startTime before taking the first match. -/
theorem scheduleSelection_lowest_priority (day : String) (t : List Nat)
    (rules : List ScheduleItem) :
    (∀ a, selectSchedule day t rules = some a →
      scheduleActive day t a = true ∧
      (∀ b ∈ rules, scheduleActive day t b = true → a.priority ≤ b.priority) ∧
      (∃ l1 l2, rules = l1 ++ a :: l2 ∧
        ∀ b ∈ l1, scheduleActive day t b = true → a.priority < b.priority)) ∧
    ((∃ b ∈ rules, scheduleActive day t b = true ∧ b.priority < maxSafeInteger) →
      ∃ a, selectSchedule day t rules = some a) ∧
    (∀ a, startPlaybackSelect day t rules = some a →
      scheduleActive day t a = true ∧ a ∈ rules ∧
      ∀ b ∈ rules, scheduleActive day t b = true →
        a.priority < b.priority ∨
          (a.priority = b.priority ∧ strLt b.start_time a.start_time = false)) ∧
    ((∃ b ∈ rules, scheduleActive day t b = true) →
      ∃ a, startPlaybackSelect day t rules = some a) := by
  refine ⟨?_, ?_, ?_, ?_⟩
  · intro a ha
    rcases selectLoop_spec day t rules none maxSafeInteger with ⟨heq, hmin⟩ |
      ⟨l1, a2, l2, hsplit, heq, hact, hlt, hfirst, hrest⟩
    · unfold selectSchedule at ha
      rw [heq] at ha
      cases ha
    · unfold selectSchedule at ha
      rw [heq] at ha
      injection ha with ha2
      subst ha2
      refine ⟨hact, ?_, l1, l2, hsplit, hfirst⟩
      intro b hb hbact
      rw [hsplit] at hb
      rcases List.mem_append.mp hb with hb1 | hb2
      · exact le_of_lt (hfirst b hb1 hbact)
      · rcases List.mem_cons.mp hb2 with rfl | hb3
        · exact le_refl _
        · exact hrest b hb3 hbact
  · rintro ⟨b, hb, hbact, hbp⟩
    rcases selectLoop_spec day t rules none maxSafeInteger with ⟨heq, hmin⟩ |
      ⟨l1, a2, l2, hsplit, heq, hact, hlt, hfirst, hrest⟩
    · exact absurd (hmin b hb hbact) (by omega)
    · exact ⟨a2, by unfold selectSchedule; rw [heq]⟩
  · intro a ha
    unfold startPlaybackSelect sortedSchedules at ha
    have hpw := List.sorted_mergeSort scheduleLe_trans scheduleLe_total rules
    obtain ⟨hpa, hmin⟩ := find?_min_of_pairwise scheduleLe_refl hpw ha
    refine ⟨hpa, ?_, ?_⟩
    · exact List.mem_mergeSort.mp (List.mem_of_find?_eq_some ha)
    · intro b hb hbact
      have hb2 : b ∈ rules.mergeSort scheduleLe := List.mem_mergeSort.mpr hb
      have hle := hmin b hb2 hbact
      simp only [scheduleLe, Bool.or_eq_true, Bool.and_eq_true, decide_eq_true_eq, beq_iff_eq,
        Bool.not_eq_true'] at hle
      exact hle
  · rintro ⟨b, hb, hbact⟩
    have hb2 : b ∈ rules.mergeSort scheduleLe := List.mem_mergeSort.mpr hb
    have hex : ∃ x, x ∈ rules.mergeSort scheduleLe ∧ scheduleActive day t x = true :=
      ⟨b, hb2, hbact⟩
    obtain ⟨a, ha⟩ := Option.isSome_iff_exists.mp (List.find?_isSome.mpr hex)
    exact ⟨a, ha⟩

/-- Witness for the amended C2, on the counterexample rule set: the loop
result "P1" matches, has minimal priority among matches, and no earlier
array entry matches with a priority as low. -/
theorem scheduleSelection_lowest_priority_witness :
    scheduleActive "Monday" (encodeHHMM 10 30) c2r1 = true ∧
    (∀ b ∈ [c2r1, c2r2], scheduleActive "Monday" (encodeHHMM 10 30) b = true →
      c2r1.priority ≤ b.priority) ∧
    (∃ l1 l2, [c2r1, c2r2] = l1 ++ c2r1 :: l2 ∧
      ∀ b ∈ l1, scheduleActive "Monday" (encodeHHMM 10 30) b = true →
        c2r1.priority < b.priority) :=
  (scheduleSelection_lowest_priority "Monday" (encodeHHMM 10 30) [c2r1, c2r2]).1 c2r1
    (by decide)

/-- The `schedule` column of a screen row: the `upcoming` rule array
(`screen.schedule.upcoming` is the only part `checkSchedule` reads). -/
structure ScreenSchedule where
  upcoming : List ScheduleItem
deriving Repr, DecidableEq

/-- The part of a screen row consumed by `ScheduleService.checkSchedule`. -/
structure Screen where
  current_playlist : Option String
  schedule : Option ScreenSchedule
deriving Repr, DecidableEq

/-- The mutable state of `ScheduleService`: the private
`currentPlaylistId` field that `checkSchedule` reads and writes. -/
structure ScheduleState where
  currentPlaylistId : Option String
deriving Repr, DecidableEq

/-- One invocation of `ScheduleService.checkSchedule` at a fixed instant
(`day`, minute-resolution time `t`) with the screen row the API returned.
The result is the emitted boolean (`true` when the playlist changed) paired
with the updated service state. -/
def checkSchedule (st : ScheduleState) (screen : Option Screen)
    (day : String) (t : List Nat) : Bool × ScheduleState :=
  match screen with
  | none => (false, st)
  | some scr =>
      match scr.schedule with
      | none => (false, st)
      | some sch =>
          match sch.upcoming with
          | [] => (false, st)
          | _ :: _ =>
              match selectSchedule day t sch.upcoming with
              | some best =>
                  if some best.playlist_id ≠ st.currentPlaylistId then
                    (true, ⟨some best.playlist_id⟩)
                  else
                    (false, st)
              | none =>
                  match scr.current_playlist with
                  | some cp =>
                      if st.currentPlaylistId ≠ some cp then (true, ⟨some cp⟩)
                      else (false, st)
                  | none => (false, st)

/-- C7 counterexample rule: always matching, for playlist "P1". -/
def c7Rule : ScheduleItem :=
  { playlist_id := "P1", start_time := encodeHHMM 0 0, end_time := encodeHHMM 23 59,
    priority := 1, days_of_week := none }

/-- C7 counterexample screen: one always-matching rule for playlist "P1"
and assigned playlist "P0". -/
def c7Screen : Screen :=
  { current_playlist := some "P0", schedule := some ⟨[c7Rule]⟩ }

/-- C7 counterexample: with a fixed instant and fixed screen data, the first
invocation of checkSchedule returns true and the immediate second invocation
returns false — the check keeps internal state (the last resolved playlist
id), so two successive invocations do not yield the same result. -/
theorem checkSchedule_not_stateless :
    (checkSchedule ⟨none⟩ (some c7Screen) "Monday" (encodeHHMM 10 0)).1 = true ∧
    (checkSchedule (checkSchedule ⟨none⟩ (some c7Screen) "Monday" (encodeHHMM 10 0)).2
      (some c7Screen) "Monday" (encodeHHMM 10 0)).1 = false := by decide

/-- C7 (amended): the matched rule itself is computed purely from the
instant and the screen data — whenever a rule matches, the post-state
playlist id is that rule's playlist id regardless of the prior state — and
checkSchedule is idempotent: re-invoking it at the same instant with the
same screen data returns false and leaves the stored state unchanged.  Only
the boolean change-flag of the first invocation depends on history. -/
theorem checkSchedule_idempotent (st : ScheduleState) (screen : Option Screen)
    (day : String) (t : List Nat) :
    (checkSchedule (checkSchedule st screen day t).2 screen day t
      = (false, (checkSchedule st screen day t).2)) ∧
    (∀ scr sch best, screen = some scr → scr.schedule = some sch →
      selectSchedule day t sch.upcoming = some best →
      (checkSchedule st screen day t).2.currentPlaylistId = some best.playlist_id) := by
  constructor
  · cases screen with
    | none => rfl
    | some scr =>
        obtain ⟨cp, schedOpt⟩ := scr
        cases schedOpt with
        | none => rfl
        | some sch =>
            obtain ⟨up⟩ := sch
            cases up with
            | nil => rfl
            | cons u us =>
                cases hsel : selectSchedule day t (u :: us) with
                | some best =>
                    by_cases hne : some best.playlist_id = st.currentPlaylistId
                    · simp [checkSchedule, hsel, hne]
                    · simp [checkSchedule, hsel, hne]
                | none =>
                    cases cp with
                    | some c =>
                        by_cases hne : st.currentPlaylistId = some c
                        · simp [checkSchedule, hsel, hne]
                        · simp [checkSchedule, hsel, hne]
                    | none => simp [checkSchedule, hsel]
  · rintro scr sch best rfl hsch hsel
    obtain ⟨cp, schedOpt⟩ := scr
    simp only [Screen.schedule] at hsch
    subst hsch
    obtain ⟨up⟩ := sch
    cases up with
    | nil => exact absurd hsel (by simp [selectSchedule, selectLoop])
    | cons u us =>
        by_cases hne : some best.playlist_id = st.currentPlaylistId
        · simp only [checkSchedule, hsel]
          rw [if_neg (by simp [hne])]
          exact hne.symm
        · simp [checkSchedule, hsel, hne]

/-- Witness for the amended C7: on the counterexample screen, after one
invocation from the empty state the stored playlist id is the matched
rule's "P1". -/
theorem checkSchedule_idempotent_witness :
    (checkSchedule ⟨none⟩ (some c7Screen) "Monday" (encodeHHMM 10 0)).2.currentPlaylistId
      = some "P1" :=
  (checkSchedule_idempotent ⟨none⟩ (some c7Screen) "Monday" (encodeHHMM 10 0)).2
    c7Screen ⟨[c7Rule]⟩ c7Rule rfl rfl (by decide)

/-- A downloaded binary blob: only its size and MIME type are observable to
the cache logic. -/
structure Blob where
  size : Nat
  type : String
deriving Repr, DecidableEq

/-- A record of the IndexedDB content store (interface `CachedContent` in
`content-sync.service.ts`); `blob` is absent for records written by the old
cache format. -/
structure CachedContent where
  url : String
  localUrl : String
  size : Nat
  timestamp : Nat
  type : String
  blob : Option Blob
deriving Repr, DecidableEq

/-- One observer event of an RxJS `Observable<string>` subscription. -/
inductive Emit where
  | nxt (value : String)
  | err (message : String)
  | done
deriving Repr, DecidableEq

deriving instance DecidableEq for Except

/-- The environment of one `getLocalContentUrl` call, fixing the outcome of
each of its suspension points: whether the database initialised, the
in-memory blob-URL map lookup, the content-store read (which can fire
`onerror`), `URL.createObjectURL` on the stored blob (which can throw), and
the download observable after its 2 retries. -/
structure ResolveEnv where
  dbInitOk : Bool
  blobCacheHit : Option String
  storeRead : Except Unit (Option CachedContent)
  createUrl : Except Unit String
  download : Except Unit String
deriving Repr, DecidableEq

/-- `ContentSyncService.getLocalContentUrl`: the sequence of observer
events the returned observable emits for `originalUrl` under environment
`env`, branch for branch from the source: empty address passes through;
a failed initialisation, a store `onerror`, a throwing
`URL.createObjectURL`, and a failed download all emit the original address;
a blob-cache hit emits the tracked URL; a cache hit with a stored blob
emits the recreated blob URL; a miss or a blob-less record emits the
download result. -/
def getLocalContentUrl (env : ResolveEnv) (originalUrl : String) : List Emit :=
  if originalUrl = "" then [Emit.nxt originalUrl, Emit.done]
  else if env.dbInitOk = false then [Emit.nxt originalUrl, Emit.done]
  else
    match env.blobCacheHit with
    | some u => [Emit.nxt u, Emit.done]
    | none =>
        match env.storeRead with
        | Except.error _ => [Emit.nxt originalUrl, Emit.done]
        | Except.ok (some c) =>
            match c.blob with
            | some _ =>
                match env.createUrl with
                | Except.ok u => [Emit.nxt u, Emit.done]
                | Except.error _ => [Emit.nxt originalUrl, Emit.done]
            | none =>
                match env.download with
                | Except.ok u => [Emit.nxt u, Emit.done]
                | Except.error _ => [Emit.nxt originalUrl, Emit.done]
        | Except.ok none =>
            match env.download with
            | Except.ok u => [Emit.nxt u, Emit.done]
            | Except.error _ => [Emit.nxt originalUrl, Emit.done]

/-- C3: under every environment, `getLocalContentUrl` emits exactly one
value followed by completion and never signals an error; the empty address
is passed through unchanged; and on each failure path — database
unavailable, store read error, blob-URL creation failure, download failure
after retries — the emitted value is the original remote address. -/
theorem getLocalContentUrl_resolves (env : ResolveEnv) (url : String) :
    (∃ v, getLocalContentUrl env url = [Emit.nxt v, Emit.done]) ∧
    (getLocalContentUrl env "" = [Emit.nxt "", Emit.done]) ∧
    (env.dbInitOk = false → getLocalContentUrl env url = [Emit.nxt url, Emit.done]) ∧
    (env.blobCacheHit = none → env.storeRead = Except.error () →
      getLocalContentUrl env url = [Emit.nxt url, Emit.done]) ∧
    (∀ c, env.blobCacheHit = none → env.storeRead = Except.ok (some c) →
      c.blob.isSome = true → env.createUrl = Except.error () →
      getLocalContentUrl env url = [Emit.nxt url, Emit.done]) ∧
    (∀ r, env.blobCacheHit = none → env.storeRead = Except.ok r →
      (∀ c, r = some c → c.blob = none) → env.download = Except.error () →
      getLocalContentUrl env url = [Emit.nxt url, Emit.done]) := by
  obtain ⟨dbOk, bc, sr, cu, dl⟩ := env
  refine ⟨?_, by simp [getLocalContentUrl], ?_, ?_, ?_, ?_⟩
  · unfold getLocalContentUrl
    by_cases hu : url = ""
    · exact ⟨url, by simp [hu]⟩
    · cases dbOk with
      | false => exact ⟨url, by simp [hu]⟩
      | true =>
          cases bc with
          | some u => exact ⟨u, by simp [hu]⟩
          | none =>
              cases sr with
              | error e => exact ⟨url, by simp [hu]⟩
              | ok r =>
                  cases r with
                  | none =>
                      cases dl with
                      | ok u => exact ⟨u, by simp [hu]⟩
                      | error e => exact ⟨url, by simp [hu]⟩
                  | some c =>
                      cases hcb : c.blob with
                      | some b =>
                          cases cu with
                          | ok u => exact ⟨u, by simp [hu, hcb]⟩
                          | error e => exact ⟨url, by simp [hu, hcb]⟩
                      | none =>
                          cases dl with
                          | ok u => exact ⟨u, by simp [hu, hcb]⟩
                          | error e => exact ⟨url, by simp [hu, hcb]⟩
  · intro hdb
    subst hdb
    by_cases hu : url = "" <;> simp [getLocalContentUrl, hu]
  · intro hbc hsr
    subst hbc
    subst hsr
    by_cases hu : url = "" <;> simp [getLocalContentUrl, hu]
  · intro c hbc hsr hblob hcu
    subst hbc
    subst hsr
    subst hcu
    obtain ⟨b, hb⟩ := Option.isSome_iff_exists.mp hblob
    by_cases hu : url = "" <;> simp [getLocalContentUrl, hu, hb]
  · intro r hbc hsr hblobless hdl
    subst hbc
    subst hsr
    subst hdl
    cases r with
    | none => by_cases hu : url = "" <;> simp [getLocalContentUrl, hu]
    | some c =>
        have hcb := hblobless c rfl
        by_cases hu : url = "" <;> simp [getLocalContentUrl, hu, hcb]

/-- Concrete failure environment for the C3 witness: database initialised,
no blob-cache hit, and the store read fires `onerror`. -/
def c3Env : ResolveEnv :=
  { dbInitOk := true, blobCacheHit := none, storeRead := Except.error (),
    createUrl := Except.ok "blob:x", download := Except.ok "blob:x" }

/-- Witness for C3: a store read error degrades to emitting the original
remote address once, followed by completion. -/
theorem getLocalContentUrl_resolves_witness :
    getLocalContentUrl c3Env "https://cdn.example/video.mp4"
      = [Emit.nxt "https://cdn.example/video.mp4", Emit.done] :=
  (getLocalContentUrl_resolves c3Env "https://cdn.example/video.mp4").2.2.2.1 rfl rfl

/-- Content of a playlist item (`PlaylistItem.content` in
`playlist.model.ts`). -/
structure ItemContent where
  url : String
  thumbnail : Option String
deriving Repr, DecidableEq

/-- Per-item settings (`PlaylistItem.settings`); `transition` is one of the
strings "fade", "slide", "none" and `scaling` one of "fit", "fill",
"stretch". -/
structure ItemSettings where
  transition : String
  transitionDuration : Nat
  scaling : String
  muted : Option Bool
  loop : Option Bool
deriving Repr, DecidableEq

/-- A playlist item (`PlaylistItem` in `playlist.model.ts`; the untyped
`schedule: any` field, unused by the playback engine, is not modelled). -/
structure PlaylistItem where
  id : String
  type : String
  name : String
  duration : Nat
  content : ItemContent
  settings : ItemSettings
deriving Repr, DecidableEq

/-- Playlist-level transition default (`PlaylistSettings.transition`). -/
structure TransitionSetting where
  type : String
  duration : Nat
deriving Repr, DecidableEq

/-- Playlist-level scheduling settings (`PlaylistSettings.scheduling`). -/
structure SchedulingSettings where
  enabled : Bool
  startDate : Option String
  endDate : Option String
  priority : Int
deriving Repr, DecidableEq

/-- Playlist-level settings (`PlaylistSettings` in `playlist.model.ts`). -/
structure PlaylistSettings where
  autoPlay : Bool
  loop : Bool
  defaultMuted : Bool
  transition : TransitionSetting
  defaultDuration : Nat
  scheduling : SchedulingSettings
deriving Repr, DecidableEq

/-- A playlist document (`Playlist` in `playlist.model.ts`; the optional
`schedule` field, unused by the engine, is not modelled).  `items` is an
ordered sequence — list order is playback order. -/
structure Playlist where
  id : String
  name : String
  description : Option String
  duration : Nat
  items : List PlaylistItem
  lastModified : String
  createdBy : String
  status : String
  tags : Option (List String)
  settings : PlaylistSettings
deriving Repr, DecidableEq

/-- A record of the IndexedDB playlist store: the playlist document spread
together with the added cache timestamp
(`{ ...playlist, timestamp: Date.now() }` in
`ContentSyncService.cachePlaylist`; `Playlist` has no `timestamp` field, so
the spread clobbers nothing). -/
structure CachedPlaylist where
  playlist : Playlist
  timestamp : Nat
deriving Repr, DecidableEq

/-- `ContentSyncService.cachePlaylist`: `store.put(playlistEntry)` on the
playlist store, whose key path is `id` — an upsert by playlist id.  (The
preload side effects touch only the content store.) -/
def cachePlaylist (store : List CachedPlaylist) (p : Playlist) (now : Nat) :
    List CachedPlaylist :=
  (store.filter fun c => c.playlist.id ≠ p.id) ++ [⟨p, now⟩]

/-- `ContentSyncService.getCachedPlaylist`: `store.get(id)` on the playlist
store, returning the stored record — the playlist document with its cache
timestamp — or nothing. -/
def getCachedPlaylist (store : List CachedPlaylist) (id : String) :
    Option CachedPlaylist :=
  store.find? fun c => c.playlist.id = id

/-- C9: caching a playlist and then retrieving it by its id returns the
document field-for-field identical to the original — in particular with the
same item sequence in the same order — except for the added cache-timestamp
field. -/
theorem cachePlaylist_roundtrip (store : List CachedPlaylist) (p : Playlist) (now : Nat) :
    getCachedPlaylist (cachePlaylist store p now) p.id = some ⟨p, now⟩ := by
  unfold getCachedPlaylist cachePlaylist
  rw [List.find?_append]
  have hnone : (store.filter fun c => c.playlist.id ≠ p.id).find?
      (fun c => decide (c.playlist.id = p.id)) = none := by
    rw [List.find?_eq_none]
    intro x hx
    have hne := (List.mem_filter.mp hx).2
    simp only [decide_eq_true_eq, ne_eq, decide_not] at hne ⊢
    simpa using hne
  rw [hnone]
  simp

/-- The record a reverse cursor (`openCursor(null, 'prev')`) over the
playlist store's `timestamp` index yields first: a record with the maximal
cache timestamp, or nothing when the store is empty. -/
def newestCached : List CachedPlaylist → Option CachedPlaylist
  | [] => none
  | c :: rest =>
      match newestCached rest with
      | none => some c
      | some d => if d.timestamp ≤ c.timestamp then some c else some d

/-- The newest-cached record exists for a non-empty store, belongs to the
store, and its timestamp dominates every record. -/
theorem newestCached_max : ∀ (store : List CachedPlaylist), store ≠ [] →
    ∃ c, c ∈ store ∧ newestCached store = some c ∧ ∀ d ∈ store, d.timestamp ≤ c.timestamp := by
  intro store
  induction store with
  | nil => intro h; exact absurd rfl h
  | cons x rest ih =>
      intro _
      cases hrest : rest with
      | nil =>
          refine ⟨x, List.mem_cons_self x [], ?_, ?_⟩
          · simp [newestCached]
          · intro d hd
            rcases List.mem_cons.mp hd with rfl | hd2
            · exact le_refl _
            · cases hd2
      | cons y ys =>
          obtain ⟨c, hc, hcval, hcmax⟩ := ih (by simp [hrest])
          rw [← hrest] at *
          by_cases hle : c.timestamp ≤ x.timestamp
          · refine ⟨x, List.mem_cons_self x rest, ?_, ?_⟩
            · simp [newestCached, hcval, hle]
            · intro d hd
              rcases List.mem_cons.mp hd with rfl | hd2
              · exact le_refl _
              · exact le_trans (hcmax d hd2) hle
          · refine ⟨c, List.mem_cons_of_mem x hc, ?_, ?_⟩
            · simp [newestCached, hcval, hle]
            · intro d hd
              rcases List.mem_cons.mp hd with rfl | hd2
              · omega
              · exact hcmax d hd2

/-- `ContentSyncService.getFallbackPlaylist`: first try the bundled static
document `/assets/fallback/fallback-playlist.json`; on failure, fall back
to the newest cached playlist record from the store, or nothing when the
database is unavailable or the store is empty.  `bundled` is the outcome of
the HTTP fetch of the static asset and `dbReady` whether the database
opened and initialised. -/
def getFallbackPlaylist (bundled : Option Playlist) (dbReady : Bool)
    (store : List CachedPlaylist) : Option Playlist :=
  match bundled with
  | some p => some p
  | none =>
      if dbReady then (newestCached store).map (fun c => c.playlist) else none

/-- The published player state (`player-state.model.ts`; the `lastUpdated`
wall-clock timestamp is not modelled). -/
structure PlayerState where
  isPlaying : Bool
  isOnline : Bool
  currentPlaylistId : Option String
  currentPlaylistName : String
  currentItemIndex : Nat
  totalItems : Nat
deriving Repr, DecidableEq

/-- The internal `PlaybackService` state relevant to playback control: the
loaded playlist and index, the `isTransitioning$`, `currentItem$`,
`nextItem$` and `playbackError$` subjects, and the published player
state. -/
structure PlaybackState where
  currentPlaylist : Option Playlist
  currentIndex : Nat
  isTransitioning : Bool
  currentItem : Option PlaylistItem
  nextItem : Option PlaylistItem
  playbackError : Option String
  playerState : PlayerState
deriving Repr, DecidableEq

/-- `PlaybackService.playCurrentItem`: with a non-empty loaded playlist,
emit the item at the current index as current (after the forced
null-then-item change-detection tick, the subject holds the item), emit the
item at `(index+1) mod length` as next for preloading, clear the
transitioning flag, and publish `isPlaying` with the current index. -/
def playCurrentItem (s : PlaybackState) : PlaybackState :=
  match s.currentPlaylist with
  | none => s
  | some pl =>
      if pl.items.length = 0 then s
      else
        { s with
          isTransitioning := false,
          currentItem := pl.items.get? s.currentIndex,
          nextItem := pl.items.get? ((s.currentIndex + 1) % pl.items.length),
          playerState := { s.playerState with
            isPlaying := true, currentItemIndex := s.currentIndex } }

/-- `PlaybackService.skipToNext`, entry plus the completed transition
timeout: with a non-empty loaded playlist, clear any pending transition,
set Transitioning, and when the timer fires advance the index modulo the
playlist length, clear Transitioning and play the new current item. -/
def skipToNext (s : PlaybackState) : PlaybackState :=
  match s.currentPlaylist with
  | none => s
  | some pl =>
      if pl.items.length = 0 then s
      else
        playCurrentItem
          { s with
            currentIndex := (s.currentIndex + 1) % pl.items.length,
            isTransitioning := false }

/-- `PlaybackService.getTransitionDuration` in milliseconds: when the
current item's transition type is not "none", the JS expression
`currentItem.settings.transitionDuration * 1000 || 500` (a zero product is
falsy and falls back to the 500 ms default); otherwise 0. -/
def getTransitionDuration (s : PlaybackState) : Nat :=
  match s.currentItem with
  | some item =>
      if item.settings.transition ≠ "none" then
        if item.settings.transitionDuration * 1000 = 0 then 500
        else item.settings.transitionDuration * 1000
      else 0
  | none => 0

/-- The terminal error message `loadFallbackContent` publishes when no
fallback content is available. -/
def noContentMsg : String :=
  "No content available. Please check your connection or device configuration."

/-- `PlaybackService.loadFallbackContent`, applied to the resolved outcome
of `getFallbackPlaylist`: a non-null fallback playlist is installed at
index 0, the error channel cleared, the player state updated with the
"(Fallback)" label, and the current item played; a null outcome only sets
the terminal error message — nothing else changes and no retry is
scheduled. -/
def loadFallbackContent (s : PlaybackState) (fb : Option Playlist) : PlaybackState :=
  match fb with
  | some fp =>
      playCurrentItem
        { s with
          currentPlaylist := some fp,
          currentIndex := 0,
          playbackError := none,
          playerState := { s.playerState with
            isPlaying := true,
            currentPlaylistId := some fp.id,
            currentPlaylistName := fp.name ++ " (Fallback)",
            currentItemIndex := 0,
            totalItems := fp.items.length } }
  | none =>
      { s with playbackError := some noContentMsg }

/-- `PlaybackService.processPlaylist`: a playlist with at least one item is
installed at index 0 with the error channel cleared and played; an empty or
missing playlist leaves the loaded playlist alone, sets the error channel
and falls back to `loadFallbackContent` (whose resolved outcome is the
parameter `fb`). -/
def processPlaylist (s : PlaybackState) (pl : Playlist) (fb : Option Playlist) :
    PlaybackState :=
  if 0 < pl.items.length then
    playCurrentItem
      { s with
        currentPlaylist := some pl,
        currentIndex := 0,
        playbackError := none,
        playerState := { s.playerState with
          isPlaying := true,
          currentPlaylistId := some pl.id,
          currentPlaylistName := pl.name,
          currentItemIndex := 0,
          totalItems := pl.items.length } }
  else
    loadFallbackContent
      { s with playbackError := some "Playlist is empty or could not be loaded" } fb

/-- `PlaybackService.restartPlayback`: clear any pending transition, reset
the index to 0 and play the current item. -/
def restartPlayback (s : PlaybackState) : PlaybackState :=
  playCurrentItem { s with isTransitioning := false, currentIndex := 0 }

/-- C5: with a loaded playlist of n ≥ 1 items at index i, a completed
skipToNext leaves the index at (i+1) mod n — wrapping unconditionally,
with no reference to the loop setting — the Transitioning flag false, and
the item at the new index emitted as the current item. -/
theorem skipToNext_advances (s : PlaybackState) (pl : Playlist)
    (hpl : s.currentPlaylist = some pl) (hn : 0 < pl.items.length) :
    (skipToNext s).currentIndex = (s.currentIndex + 1) % pl.items.length ∧
    (skipToNext s).isTransitioning = false ∧
    (skipToNext s).currentItem = pl.items.get? ((s.currentIndex + 1) % pl.items.length) ∧
    ((skipToNext s).currentItem).isSome = true ∧
    (skipToNext s).currentPlaylist = some pl := by
  have hne : ¬ pl.items.length = 0 := by omega
  have hlt : (s.currentIndex + 1) % pl.items.length < pl.items.length :=
    Nat.mod_lt _ hn
  have hne2 : ¬ pl.items = [] := by
    intro h
    rw [h] at hn
    simp at hn
  simp [skipToNext, hpl, if_neg hne, playCurrentItem, hne2, List.get?_eq_get hlt,
    List.getElem?_eq_getElem hlt]

/-- Concrete two-item playlist for the playback witnesses. -/
def wItem1 : PlaylistItem :=
  { id := "i1", type := "image", name := "one", duration := 5,
    content := { url := "https://cdn.example/a.png", thumbnail := none },
    settings := { transition := "fade", transitionDuration := 1, scaling := "fit",
                  muted := none, loop := none } }

/-- Second concrete playlist item. -/
def wItem2 : PlaylistItem :=
  { id := "i2", type := "video", name := "two", duration := 10,
    content := { url := "https://cdn.example/b.mp4", thumbnail := none },
    settings := { transition := "none", transitionDuration := 2, scaling := "fill",
                  muted := some true, loop := some false } }

/-- Concrete playlist settings for the witnesses. -/
def wSettings : PlaylistSettings :=
  { autoPlay := true, loop := false, defaultMuted := false,
    transition := { type := "fade", duration := 1 },
    defaultDuration := 10,
    scheduling := { enabled := false, startDate := none, endDate := none, priority := 1 } }

/-- Concrete two-item playlist. -/
def wPlaylist : Playlist :=
  { id := "PL", name := "demo", description := none, duration := 15,
    items := [wItem1, wItem2], lastModified := "", createdBy := "", status := "active",
    tags := none, settings := wSettings }

/-- The initial `PlaybackService` state (the subjects' initial values). -/
def initialState : PlaybackState :=
  { currentPlaylist := none, currentIndex := 0, isTransitioning := false,
    currentItem := none, nextItem := none, playbackError := none,
    playerState := { isPlaying := false, isOnline := true, currentPlaylistId := none,
                     currentPlaylistName := "", currentItemIndex := 0, totalItems := 0 } }

/-- Concrete pre-state for the C5 witness: the two-item playlist loaded at
its last index. -/
def c5State : PlaybackState :=
  { initialState with currentPlaylist := some wPlaylist, currentIndex := 1 }

/-- Witness for C5: at the last index of a two-item playlist, skipToNext
wraps to index 0, clears Transitioning and emits the first item. -/
theorem skipToNext_advances_witness :
    (skipToNext c5State).currentIndex = (1 + 1) % wPlaylist.items.length ∧
    (skipToNext c5State).isTransitioning = false ∧
    (skipToNext c5State).currentItem
      = wPlaylist.items.get? ((1 + 1) % wPlaylist.items.length) ∧
    ((skipToNext c5State).currentItem).isSome = true ∧
    (skipToNext c5State).currentPlaylist = some wPlaylist :=
  skipToNext_advances c5State wPlaylist rfl (by decide)

/-- C6 (fallback chain): the bundled static document is always preferred;
with the bundled document unavailable, the newest cached playlist (by cache
timestamp) is returned whenever at least one playlist is cached, regardless
of which playlist was requested; a present fallback playlist is installed
and played; and only when the bundled document is unavailable and the
playlist cache is empty does loadFallbackContent surface the terminal
error, changing nothing but the error channel — in particular scheduling no
retry. -/
theorem fallback_chain (s : PlaybackState) (dbReady : Bool)
    (store : List CachedPlaylist) (bp : Playlist) :
    (getFallbackPlaylist (some bp) dbReady store = some bp) ∧
    (store ≠ [] → ∃ c, c ∈ store ∧
      getFallbackPlaylist none true store = some c.playlist ∧
      ∀ d ∈ store, d.timestamp ≤ c.timestamp) ∧
    (getFallbackPlaylist none dbReady [] = none) ∧
    (∀ fp, (loadFallbackContent s (some fp)).currentPlaylist = some fp ∧
      (loadFallbackContent s (some fp)).playbackError = none) ∧
    (loadFallbackContent s none = { s with playbackError := some noContentMsg }) := by
  refine ⟨rfl, ?_, ?_, ?_, rfl⟩
  · intro h
    obtain ⟨c, hc, hcval, hcmax⟩ := newestCached_max store h
    exact ⟨c, hc, by simp [getFallbackPlaylist, hcval], hcmax⟩
  · cases dbReady <;> simp [getFallbackPlaylist, newestCached]
  · intro fp
    simp only [loadFallbackContent, playCurrentItem]
    split <;> exact ⟨rfl, rfl⟩

/-- Witness for C6: with an empty bundled response and exactly one cached
playlist, the fallback is that playlist, the newest cached one. -/
theorem fallback_chain_witness :
    ∃ c, c ∈ [(⟨wPlaylist, 5⟩ : CachedPlaylist)] ∧
      getFallbackPlaylist none true [(⟨wPlaylist, 5⟩ : CachedPlaylist)] = some c.playlist ∧
      ∀ d ∈ [(⟨wPlaylist, 5⟩ : CachedPlaylist)], d.timestamp ≤ c.timestamp :=
  (fallback_chain initialState true [(⟨wPlaylist, 5⟩ : CachedPlaylist)] wPlaylist).2.1
    (by simp)

/-- C8 counterexample item: transition type "fade" with a transition
duration of 0 seconds. -/
def c8Item : PlaylistItem :=
  { id := "i0", type := "image", name := "zero", duration := 5,
    content := { url := "https://cdn.example/c.png", thumbnail := none },
    settings := { transition := "fade", transitionDuration := 0, scaling := "fit",
                  muted := none, loop := none } }

/-- C8 counterexample state: the current item is `c8Item`. -/
def c8State : PlaybackState :=
  { initialState with currentItem := some c8Item }

/-- C8 counterexample: for a current item whose transition type is not
"none" but whose transitionDuration is 0, the delay is the 500 ms default,
not the claimed conversion 0 s → 0 ms: in `transitionDuration * 1000 || 500`
a zero product is falsy and yields 500. -/
theorem getTransitionDuration_zero_counterexample :
    c8Item.settings.transition ≠ "none" ∧
    c8Item.settings.transitionDuration * 1000 = 0 ∧
    getTransitionDuration c8State = 500 := by decide

/-- C8 (amended): the delay skipToNext waits is 0 when the current item's
transition type is "none"; otherwise it is the item's transitionDuration
converted to milliseconds when that is non-zero, and the 500 ms default
when the transitionDuration is 0. -/
theorem getTransitionDuration_spec (s : PlaybackState) (item : PlaylistItem)
    (h : s.currentItem = some item) :
    (item.settings.transition = "none" → getTransitionDuration s = 0) ∧
    (item.settings.transition ≠ "none" → 0 < item.settings.transitionDuration →
      getTransitionDuration s = item.settings.transitionDuration * 1000) ∧
    (item.settings.transition ≠ "none" → item.settings.transitionDuration = 0 →
      getTransitionDuration s = 500) := by
  refine ⟨?_, ?_, ?_⟩
  · intro ht
    simp [getTransitionDuration, h, ht]
  · intro ht hd
    have hnz : ¬ item.settings.transitionDuration * 1000 = 0 := by omega
    simp [getTransitionDuration, h, ht, hnz]
  · intro ht hd
    simp [getTransitionDuration, h, ht, hd]

/-- Witness for the amended C8: the "fade"-with-zero-duration item gets the
500 ms default delay. -/
theorem getTransitionDuration_spec_witness :
    getTransitionDuration c8State = 500 :=
  (getTransitionDuration_spec c8State c8Item rfl).2.2 (by decide) rfl

/-- The in-bounds invariant of the playback engine, restricted to loaded
playlists with at least one item. -/
def indexInBounds (s : PlaybackState) : Prop :=
  ∀ pl, s.currentPlaylist = some pl → 0 < pl.items.length →
    s.currentIndex < pl.items.length

/-- C10 counterexample playlist: a playlist with no items.  (Playlists are
cached by the background refresh before being checked for emptiness, so an
empty playlist can become the newest cache entry and hence the fallback.) -/
def emptyPlaylist : Playlist :=
  { id := "EMPTY", name := "empty", description := none, duration := 0, items := [],
    lastModified := "", createdBy := "", status := "active", tags := none,
    settings := wSettings }

/-- C10 counterexample: loadFallbackContent installs the fallback playlist
without checking that it has any items, so with an empty fallback playlist
the engine ends up with a loaded playlist for which the current index 0 is
not a valid position (the item list has no valid positions). -/
theorem loadFallback_empty_violates_bounds :
    (loadFallbackContent initialState (some emptyPlaylist)).currentPlaylist
      = some emptyPlaylist ∧
    (loadFallbackContent initialState (some emptyPlaylist)).currentIndex = 0 ∧
    emptyPlaylist.items.length = 0 ∧
    ¬ (loadFallbackContent initialState (some emptyPlaylist)).currentIndex
        < emptyPlaylist.items.length := by decide

/-- playCurrentItem changes neither the loaded playlist nor the index. -/
theorem playCurrentItem_preserves (s : PlaybackState) :
    (playCurrentItem s).currentPlaylist = s.currentPlaylist ∧
    (playCurrentItem s).currentIndex = s.currentIndex := by
  unfold playCurrentItem
  cases hcp : s.currentPlaylist with
  | none => exact ⟨hcp, rfl⟩
  | some pl =>
      by_cases hlen : pl.items.length = 0 <;> simp [hlen, hcp]

/-- playCurrentItem preserves the in-bounds invariant. -/
theorem playCurrentItem_inBounds (s : PlaybackState) (h : indexInBounds s) :
    indexInBounds (playCurrentItem s) := by
  intro pl2 h2 hlen
  obtain ⟨hp, hi⟩ := playCurrentItem_preserves s
  rw [hp] at h2
  rw [hi]
  exact h pl2 h2 hlen

/-- loadFallbackContent preserves the in-bounds invariant. -/
theorem loadFallbackContent_inBounds (s : PlaybackState) (fb : Option Playlist)
    (h : indexInBounds s) : indexInBounds (loadFallbackContent s fb) := by
  cases fb with
  | none =>
      intro pl2 h2 hlen
      exact h pl2 h2 hlen
  | some fp =>
      simp only [loadFallbackContent]
      apply playCurrentItem_inBounds
      intro pl2 h2 hlen
      have h3 : some fp = some pl2 := h2
      cases h3
      exact hlen

/-- C10 (amended): restricted to loaded playlists with at least one item,
the in-bounds invariant 0 ≤ currentIndex < number of items is preserved by
every index-changing engine operation: processing a loaded playlist,
completing a skip-to-next transition, restarting playback, and loading
fallback content. -/
theorem playback_index_invariant (s : PlaybackState) (pl : Playlist)
    (fb : Option Playlist) (h : indexInBounds s) :
    indexInBounds (processPlaylist s pl fb) ∧
    indexInBounds (skipToNext s) ∧
    indexInBounds (restartPlayback s) ∧
    indexInBounds (loadFallbackContent s fb) := by
  refine ⟨?_, ?_, ?_, loadFallbackContent_inBounds s fb h⟩
  · by_cases hlen : 0 < pl.items.length
    · simp only [processPlaylist, if_pos hlen]
      apply playCurrentItem_inBounds
      intro pl2 h2 hlen2
      have h3 : some pl = some pl2 := h2
      cases h3
      exact hlen2
    · simp only [processPlaylist, if_neg hlen]
      exact loadFallbackContent_inBounds _ fb (fun pl2 h2 hlen2 => h pl2 h2 hlen2)
  · cases hcp : s.currentPlaylist with
    | none =>
        simp only [skipToNext, hcp]
        exact h
    | some pl0 =>
        by_cases hlen : pl0.items.length = 0
        · simp only [skipToNext, hcp, if_pos hlen]
          exact h
        · simp only [skipToNext, hcp, if_neg hlen]
          apply playCurrentItem_inBounds
          intro pl2 h2 hlen2
          have h3 : some pl0 = some pl2 := h2
          cases h3
          exact Nat.mod_lt _ (by omega)
  · simp only [restartPlayback]
    apply playCurrentItem_inBounds
    intro pl2 h2 hlen2
    have h3 : s.currentPlaylist = some pl2 := h2
    exact hlen2

/-- Witness for the amended C10: all four operations preserve the invariant
from the initial state with the two-item demo playlist. -/
theorem playback_index_invariant_witness :
    indexInBounds (processPlaylist initialState wPlaylist none) ∧
    indexInBounds (skipToNext initialState) ∧
    indexInBounds (restartPlayback initialState) ∧
    indexInBounds (loadFallbackContent initialState none) :=
  playback_index_invariant initialState wPlaylist none
    (by intro pl hp hlen; simp [initialState] at hp)

/-- `MAX_CACHE_SIZE` in `content-sync.service.ts`: the 500 MB cache
budget. -/
def MAX_CACHE_SIZE : Nat := 1024 * 1024 * 500

/-- The eviction lower watermark `this.MAX_CACHE_SIZE * 0.7` computed in
`trimCache`; the double-precision product rounds to exactly this integer,
which equals 7 * MAX_CACHE_SIZE / 10 = 367001600. -/
def targetSize : Nat := 7 * MAX_CACHE_SIZE / 10

/-- Total size in bytes of a list of content records, as tracked by the
running `cacheSizeBytes` counter. -/
def sumSize (l : List CachedContent) : Int :=
  (l.map fun e => (e.size : Int)).sum

/-- Result of one pass of the `trimCache` cursor loop. -/
structure TrimResult where
  deleted : List CachedContent
  kept : List CachedContent
  deletedSize : Int
  revokedUrls : List String
deriving Repr, DecidableEq

/-- The cursor loop of `ContentSyncService.trimCache` over the timestamp
index (records in ascending stored-at order): while the cursor has a record
and the tracked size minus the deleted size still exceeds the watermark,
delete the record from the store, add its size to the deleted total, revoke
its blob URL if it has one, and continue; otherwise stop. -/
def trimGo (cacheSize : Int) : List CachedContent → Int → TrimResult
  | [], d => ⟨[], [], d, []⟩
  | e :: rest, d =>
      if cacheSize - d > (targetSize : Int) then
        let r := trimGo cacheSize rest (d + e.size)
        ⟨e :: r.deleted, r.kept, r.deletedSize,
          (if e.localUrl.startsWith "blob:" then [e.localUrl] else []) ++ r.revokedUrls⟩
      else ⟨[], e :: rest, d, []⟩

/-- The content-cache state touched by `storeContent` and `trimCache`: the
content store in timestamp-index order, the running size counter, and the
revoked blob URLs in revocation order. -/
structure CacheState where
  entries : List CachedContent
  cacheSizeBytes : Int
  revoked : List String
deriving Repr, DecidableEq

/-- `ContentSyncService.trimCache`: run the cursor loop from a zero deleted
size, then subtract the deleted size from the running counter. -/
def trimCache (s : CacheState) : CacheState :=
  let r := trimGo s.cacheSizeBytes s.entries 0
  { entries := r.kept,
    cacheSizeBytes := s.cacheSizeBytes - r.deletedSize,
    revoked := s.revoked ++ r.revokedUrls }

/-- `ContentSyncService.storeContent`: `store.put` of the new record — an
upsert by `url`; the fresh record carries `Date.now()` as its timestamp, so
it lands at the end of the timestamp index.  On transaction completion the
running counter grows by the blob size, and when it exceeds the budget a
trim pass runs. -/
def storeContent (s : CacheState) (e : CachedContent) : CacheState :=
  let s2 : CacheState :=
    { entries := (s.entries.filter fun x => x.url ≠ e.url) ++ [e],
      cacheSizeBytes := s.cacheSizeBytes + e.size,
      revoked := s.revoked }
  if s2.cacheSizeBytes > (MAX_CACHE_SIZE : Int) then trimCache s2 else s2

/-- Full characterisation of the trim cursor loop: the deleted records are
a prefix of the scan order; the deleted size is the accumulator plus their
total size; the revoked URLs are exactly the blob URLs of the deleted
records in order; the loop stops only at the watermark or when the store is
exhausted; and before each deletion the remaining size still exceeded the
watermark. -/
theorem trimGo_spec (T : Int) :
    ∀ (l : List CachedContent) (d : Int),
      (trimGo T l d).deleted ++ (trimGo T l d).kept = l ∧
      (trimGo T l d).deletedSize = d + sumSize (trimGo T l d).deleted ∧
      (trimGo T l d).revokedUrls =
        ((trimGo T l d).deleted.filter fun e => e.localUrl.startsWith "blob:").map
          (fun e => e.localUrl) ∧
      (T - (trimGo T l d).deletedSize ≤ targetSize ∨ (trimGo T l d).kept = []) ∧
      (∀ k < (trimGo T l d).deleted.length,
        T - (d + sumSize ((trimGo T l d).deleted.take k)) > targetSize) := by
  intro l
  induction l with
  | nil =>
      intro d
      refine ⟨rfl, by simp [trimGo, sumSize], rfl, Or.inr rfl, ?_⟩
      intro k hk
      simp [trimGo] at hk
  | cons e rest ih =>
      intro d
      by_cases hc : T - d > (targetSize : Int)
      · have heq : trimGo T (e :: rest) d =
            ⟨e :: (trimGo T rest (d + e.size)).deleted,
              (trimGo T rest (d + e.size)).kept,
              (trimGo T rest (d + e.size)).deletedSize,
              (if e.localUrl.startsWith "blob:" then [e.localUrl] else []) ++
                (trimGo T rest (d + e.size)).revokedUrls⟩ := by
          simp [trimGo, hc]
        obtain ⟨ha, hb, hcr, hd, he⟩ := ih (d + e.size)
        rw [heq]
        have hsum_cons : ∀ (x : CachedContent) (xs : List CachedContent),
            sumSize (x :: xs) = x.size + sumSize xs := by
          intro x xs
          simp [sumSize]
        refine ⟨?_, ?_, ?_, hd, ?_⟩
        · show e :: (trimGo T rest (d + e.size)).deleted ++ (trimGo T rest (d + e.size)).kept
            = e :: rest
          rw [List.cons_append, ha]
        · show (trimGo T rest (d + e.size)).deletedSize
            = d + sumSize (e :: (trimGo T rest (d + e.size)).deleted)
          rw [hsum_cons, hb]
          omega
        · show (if e.localUrl.startsWith "blob:" then [e.localUrl] else []) ++
              (trimGo T rest (d + e.size)).revokedUrls
            = ((e :: (trimGo T rest (d + e.size)).deleted).filter
                fun x => x.localUrl.startsWith "blob:").map (fun x => x.localUrl)
          by_cases hsw : e.localUrl.startsWith "blob:" <;>
            simp [hsw, hcr, List.filter_cons]
        · intro k hk
          cases k with
          | zero =>
              simpa [sumSize] using hc
          | succ j =>
              have hj : j < (trimGo T rest (d + e.size)).deleted.length := by
                simpa using hk
              have h5 := he j hj
              show T - (d + sumSize ((e :: (trimGo T rest (d + e.size)).deleted).take (j + 1)))
                > (targetSize : Int)
              rw [List.take_succ_cons, hsum_cons]
              omega
      · have heq : trimGo T (e :: rest) d = ⟨[], e :: rest, d, []⟩ := by
          simp [trimGo, hc]
        rw [heq]
        refine ⟨rfl, by simp [sumSize], rfl,
          Or.inl (by show T - d ≤ (targetSize : Int); omega), ?_⟩
        intro k hk
        simp at hk

/-- C4: when a successful store pushes the running size above the budget,
the triggered eviction pass deletes a prefix of the store in oldest-first
stored-at order, stopping as soon as the remaining tracked size is at most
the 70% watermark (reaching it exactly — each earlier stop point would
still exceed it); the removed records are exactly the oldest by stored-at
(every removed record is no newer than every kept one), and the handles
revoked during the pass are exactly the blob URLs of the removed records,
revoked within the same pass iteration that deletes the record. -/
theorem storeContent_evicts (s : CacheState) (e : CachedContent)
    (hsum : s.cacheSizeBytes = sumSize s.entries)
    (hover : s.cacheSizeBytes + e.size > MAX_CACHE_SIZE)
    (hfresh : ∀ x ∈ s.entries, x.url ≠ e.url)
    (hts : (s.entries ++ [e]).Pairwise fun a b => a.timestamp ≤ b.timestamp) :
    ∃ k, (storeContent s e).entries = (s.entries ++ [e]).drop k ∧
      (storeContent s e).cacheSizeBytes = sumSize ((s.entries ++ [e]).drop k) ∧
      (storeContent s e).cacheSizeBytes ≤ targetSize ∧
      (∀ j < k, sumSize (s.entries ++ [e]) - sumSize ((s.entries ++ [e]).take j)
        > targetSize) ∧
      (storeContent s e).revoked = s.revoked ++
        (((s.entries ++ [e]).take k).filter fun x => x.localUrl.startsWith "blob:").map
          (fun x => x.localUrl) ∧
      (∀ a ∈ (s.entries ++ [e]).take k, ∀ b ∈ (s.entries ++ [e]).drop k,
        a.timestamp ≤ b.timestamp) := by
  have hfilter : (s.entries.filter fun x => x.url ≠ e.url) = s.entries := by
    apply List.filter_eq_self.mpr
    intro a ha
    simpa using hfresh a ha
  set L := s.entries ++ [e] with hL
  set T := s.cacheSizeBytes + e.size with hT
  have hTL : T = sumSize L := by
    rw [hT, hL, hsum]
    simp [sumSize]
  have hst : storeContent s e = trimCache ⟨L, T, s.revoked⟩ := by
    unfold storeContent
    rw [hfilter]
    rw [if_pos (by push_cast; omega)]
  obtain ⟨ha, hb, hcr, hd, he⟩ := trimGo_spec T L 0
  set r := trimGo T L 0 with hr
  refine ⟨r.deleted.length, ?_, ?_, ?_, ?_, ?_, ?_⟩
  · rw [hst]
    show r.kept = L.drop r.deleted.length
    rw [← ha, List.drop_left]
  · rw [hst]
    show T - r.deletedSize = sumSize (L.drop r.deleted.length)
    have hdrop : L.drop r.deleted.length = r.kept := by rw [← ha, List.drop_left]
    have happ : sumSize L = sumSize r.deleted + sumSize r.kept := by
      rw [← ha]
      simp [sumSize]
    rw [hdrop]
    omega
  · rw [hst]
    show T - r.deletedSize ≤ (targetSize : Int)
    rcases hd with hd1 | hd2
    · exact hd1
    · have happ : sumSize L = sumSize r.deleted + sumSize r.kept := by
        rw [← ha]
        simp [sumSize]
      rw [hd2] at happ
      have : sumSize ([] : List CachedContent) = 0 := by simp [sumSize]
      rw [this] at happ
      have htpos : (0 : Int) ≤ (targetSize : Int) := by positivity
      omega
  · intro j hj
    have htake : L.take j = r.deleted.take j := by
      rw [← ha, List.take_append_of_le_length (by omega)]
    have := he j hj
    rw [htake]
    omega
  · rw [hst]
    show s.revoked ++ r.revokedUrls = s.revoked ++
      ((L.take r.deleted.length).filter fun x => x.localUrl.startsWith "blob:").map
        (fun x => x.localUrl)
    have htake : L.take r.deleted.length = r.deleted := by
      rw [← ha, List.take_left]
    rw [htake, hcr]
  · intro a hamem b hbmem
    have hsplit : L.Pairwise (fun a b => a.timestamp ≤ b.timestamp) := hts
    rw [← List.take_append_drop r.deleted.length L] at hsplit
    exact (List.pairwise_append.mp hsplit).2.2 a hamem b hbmem

/-- First stored record for the C4 witness: 300 MB, stored-at 1. -/
def w4e1 : CachedContent :=
  { url := "https://cdn.example/a.mp4", localUrl := "blob:one", size := 300000000,
    timestamp := 1, type := "video/mp4", blob := some ⟨300000000, "video/mp4"⟩ }

/-- Second stored record for the C4 witness: 300 MB, stored-at 2. -/
def w4e2 : CachedContent :=
  { url := "https://cdn.example/b.mp4", localUrl := "blob:two", size := 300000000,
    timestamp := 2, type := "video/mp4", blob := some ⟨300000000, "video/mp4"⟩ }

/-- Cache state for the C4 witness: one 300 MB record tracked. -/
def w4s : CacheState :=
  { entries := [w4e1], cacheSizeBytes := 300000000, revoked := [] }

/-- Witness for C4: storing a second 300 MB record pushes the counter to
600 MB, above the 500 MB budget; the pass evicts an oldest-first prefix,
lands at or under the 70% watermark, and revokes exactly the evicted blob
handles. -/
theorem storeContent_evicts_witness :
    ∃ k, (storeContent w4s w4e2).entries = (w4s.entries ++ [w4e2]).drop k ∧
      (storeContent w4s w4e2).cacheSizeBytes = sumSize ((w4s.entries ++ [w4e2]).drop k) ∧
      (storeContent w4s w4e2).cacheSizeBytes ≤ targetSize ∧
      (∀ j < k, sumSize (w4s.entries ++ [w4e2]) - sumSize ((w4s.entries ++ [w4e2]).take j)
        > targetSize) ∧
      (storeContent w4s w4e2).revoked = w4s.revoked ++
        (((w4s.entries ++ [w4e2]).take k).filter fun x => x.localUrl.startsWith "blob:").map
          (fun x => x.localUrl) ∧
      (∀ a ∈ (w4s.entries ++ [w4e2]).take k, ∀ b ∈ (w4s.entries ++ [w4e2]).drop k,
        a.timestamp ≤ b.timestamp) :=
  storeContent_evicts w4s w4e2 (by decide) (by decide) (by decide) (by decide)

end Signage
